import Mathlib

/-!
Verification of the in-memory mock document database
(`src/backend/mock_database.py`).

The embedding models Python values occurring in the module as the
inductive type `Value` (integers, strings, lists, and string-keyed
dictionaries).  Dictionaries are modelled as insertion-ordered
association lists, matching CPython's dict semantics: lookup and
membership find the first (unique) matching key, assignment replaces
the stored value in place keeping the original key, and fresh keys are
appended at the end.  Operations that would raise a Python exception
(`TypeError`, `KeyError`, `AttributeError`, `IndexError`) are modelled
in the `Except Unit` monad.

Recursive value operations (`==`, `<`, `<=`) descend through nested
lists/dicts by well-founded recursion on value size; the top-level
operations are non-recursive wrappers so that the scalar comparison
cases reduce definitionally.
-/

namespace MockDB

inductive Value where
  | int (n : Int)
  | str (s : String)
  | arr (elems : List Value)
  | obj (fields : List (String × Value))

/-- A document body / query / pipeline stage: a Python dict with string keys. -/
abbrev Doc := List (String × Value)

abbrev Query := Doc

/-- `d[k]` on a string-keyed dict: the (unique) matching entry. -/
def docLookup : Doc → String → Option Value
  | [], _ => none
  | (k0, v0) :: rest, k => if k0 == k then some v0 else docLookup rest k

/-- `k in d` for a string-keyed dict. -/
def docMem (d : Doc) (k : String) : Bool := (docLookup d k).isSome

/-- `d[k] = v` on a string-keyed dict: replace in place, else append. -/
def docSet : Doc → String → Value → Doc
  | [], k, v => [(k, v)]
  | (k0, v0) :: rest, k, v =>
      if k0 == k then (k0, v) :: rest else (k0, v0) :: docSet rest k v

/-- `del d[k]` on a string-keyed dict (keys are unique, so removing the
first occurrence is exact). -/
def docDel : Doc → String → Doc
  | [], _ => []
  | (k0, v0) :: rest, k => if k0 == k then rest else (k0, v0) :: docDel rest k

/-- Python truthiness of a value (`if value:`). -/
def pyTruthy : Value → Bool
  | .int n => !(n == 0)
  | .str s => !(s == "")
  | .arr elems => !elems.isEmpty
  | .obj fields => !fields.isEmpty

def truthyOpt : Option Value → Bool
  | some v => pyTruthy v
  | none => false

/-- Whether a value is hashable in Python (lists and dicts are not). -/
def hashableB : Value → Bool
  | .arr _ => false
  | .obj _ => false
  | _ => true

theorem docLookup_sizeOf {ys : Doc} {k : String} {w : Value}
    (h : docLookup ys k = some w) : sizeOf w < sizeOf ys := by
  induction ys with
  | nil => simp [docLookup] at h
  | cons hd tl ih =>
    obtain ⟨k0, v0⟩ := hd
    by_cases hk : (k0 == k) = true
    · simp only [docLookup, hk, if_true, Option.some.injEq] at h
      subst h
      simp only [List.cons.sizeOf_spec, Prod.mk.sizeOf_spec]
      omega
    · simp only [docLookup, hk, if_false, Bool.false_eq_true] at h
      have := ih h
      simp only [List.cons.sizeOf_spec, Prod.mk.sizeOf_spec]
      omega

mutual
/-- Python `==` (recursive worker).  Ints and strings compare directly;
lists compare length plus elementwise equality; dicts compare length
plus, for every key of the left dict, presence in the right dict with
an equal value (key order irrelevant, as for Python dicts). -/
def pyEqV : Value → Value → Bool
  | .int x, .int y => x == y
  | .str x, .str y => x == y
  | .arr xs, .arr ys => pyEqList xs ys
  | .obj xs, .obj ys => xs.length == ys.length && pyEqFields xs ys
  | _, _ => false
termination_by a b => sizeOf a + sizeOf b

def pyEqList : List Value → List Value → Bool
  | [], [] => true
  | x :: xs, y :: ys => pyEqV x y && pyEqList xs ys
  | _, _ => false
termination_by l1 l2 => sizeOf l1 + sizeOf l2

def pyEqFields : List (String × Value) → List (String × Value) → Bool
  | [], _ => true
  | (k, v) :: xs, ys =>
      (match h : docLookup ys k with
       | some w => pyEqV v w
       | none => false) && pyEqFields xs ys
termination_by l1 l2 => sizeOf l1 + sizeOf l2
decreasing_by
  all_goals
    first
      | (have hlt := docLookup_sizeOf h
         simp_wf
         omega)
      | (simp_wf
         omega)
      | simp_wf
end

/-- Python `==` on the modelled values (non-recursive wrapper over
`pyEqV`, so scalar comparisons reduce definitionally). -/
def pyEq (a b : Value) : Bool :=
  match a, b with
  | .int x, .int y => x == y
  | .str x, .str y => x == y
  | .arr xs, .arr ys => pyEqList xs ys
  | .obj xs, .obj ys => xs.length == ys.length && pyEqFields xs ys
  | _, _ => false

/-- Contiguous-subsequence test on character lists (Python substring `in`). -/
def containsSeq (pat : List Char) : List Char → Bool
  | [] => pat.isEmpty
  | c :: rest => pat.isPrefixOf (c :: rest) || containsSeq pat rest

/-- Python `sub in s` for strings. -/
def substrB (s sub : String) : Bool := containsSeq sub.toList s.toList

/-- Python `s.split(sep)` for a single-character separator, by recursion
over the character list (`acc` holds the reversed current chunk). -/
def splitCharList (sep : Char) : List Char → List Char → List String
  | [], acc => [String.mk acc.reverse]
  | c :: rest, acc =>
      if c == sep then String.mk acc.reverse :: splitCharList sep rest []
      else splitCharList sep rest (c :: acc)

/-- Python `key.split(".")`. -/
def pySplitDot (s : String) : List String := splitCharList '.' s.toList []

/-- Python `s.replace("$", "")`: removes every dollar sign. -/
def stripDollars (s : String) : String :=
  String.mk (s.toList.filter (fun c => !(c == '$')))

/-- Python `x in container`.  Lists compare elements with `==`; strings
require a string operand (substring test); dicts hash the operand (so
lists/dicts raise) and test key membership; integers are not containers. -/
def pyMem (x container : Value) : Except Unit Bool :=
  match container with
  | .arr elems => .ok (elems.any (fun e => pyEq e x))
  | .str s =>
      match x with
      | .str sub => .ok (substrB s sub)
      | _ => .error ()
  | .obj fields =>
      match x with
      | .str k => .ok (docMem fields k)
      | .int _ => .ok false
      | _ => .error ()
  | .int _ => .error ()

/-- Python `container[k]` with a string subscript: only dicts accept it. -/
def pyIndexE (container : Value) (k : String) : Except Unit Value :=
  match container with
  | .obj fields =>
      match docLookup fields k with
      | some v => .ok v
      | none => .error ()
  | _ => .error ()

/-- Python iteration over a value (`for x in v`): lists yield elements,
strings yield one-character strings, dicts yield their keys. -/
def pyIterE : Value → Except Unit (List Value)
  | .arr elems => .ok elems
  | .str s => .ok (s.toList.map (fun c => .str (String.mk [c])))
  | .obj fields => .ok (fields.map (fun kv => .str kv.1))
  | .int _ => .error ()

mutual
/-- Python `<` (recursive worker): ints and strings compare directly;
lists compare lexicographically (equal prefixes skipped with `==`, the
ordering operator applied at the first difference, lengths compared when
one list is a prefix of the other); anything else raises `TypeError`. -/
def pyLtV : Value → Value → Except Unit Bool
  | .int x, .int y => .ok (decide (x < y))
  | .str x, .str y => .ok (decide (x < y))
  | .arr xs, .arr ys => pyLtList xs ys
  | _, _ => .error ()
termination_by a _ => sizeOf a

def pyLtList : List Value → List Value → Except Unit Bool
  | [], [] => .ok false
  | [], _ :: _ => .ok true
  | _ :: _, [] => .ok false
  | x :: xs, y :: ys => if pyEq x y then pyLtList xs ys else pyLtV x y
termination_by l1 _ => sizeOf l1
end

mutual
/-- Python `<=` (recursive worker, see `pyLtV`). -/
def pyLeV : Value → Value → Except Unit Bool
  | .int x, .int y => .ok (decide (x ≤ y))
  | .str x, .str y => .ok (decide (x < y) || x == y)
  | .arr xs, .arr ys => pyLeList xs ys
  | _, _ => .error ()
termination_by a _ => sizeOf a

def pyLeList : List Value → List Value → Except Unit Bool
  | [], [] => .ok true
  | [], _ :: _ => .ok true
  | _ :: _, [] => .ok false
  | x :: xs, y :: ys => if pyEq x y then pyLeList xs ys else pyLeV x y
termination_by l1 _ => sizeOf l1
end

/-- Python `<` (non-recursive wrapper). -/
def pyLt (a b : Value) : Except Unit Bool :=
  match a, b with
  | .int x, .int y => .ok (decide (x < y))
  | .str x, .str y => .ok (decide (x < y))
  | .arr xs, .arr ys => pyLtList xs ys
  | _, _ => .error ()

/-- Python `<=` (non-recursive wrapper). -/
def pyLe (a b : Value) : Except Unit Bool :=
  match a, b with
  | .int x, .int y => .ok (decide (x ≤ y))
  | .str x, .str y => .ok (decide (x < y) || x == y)
  | .arr xs, .arr ys => pyLeList xs ys
  | _, _ => .error ()

/-- Python `>` is the reflected `<`. -/
def pyGt (a b : Value) : Except Unit Bool := pyLt b a

/-- Python `>=` is the reflected `<=`. -/
def pyGe (a b : Value) : Except Unit Bool := pyLe b a

/-! Section: The query matcher (`MockCollection._matches_query`)

A query entry is evaluated to `Except Unit (Option Bool)`:
`some b` models an early `return b` from inside the loop over query
entries, `none` models falling through to the next entry. -/

/-- The `for k in keys[:-1]` walk of the dotted-key branch: peel
intermediate keys, keeping the final key for the operator step.
`ok none` models `return False` on a missing intermediate key. -/
def navFinal (current : Value) : List String → Except Unit (Option (Value × String))
  | [] => .error ()
  | [k] => .ok (some (current, k))
  | k :: rest =>
      match pyMem (.str k) current with
      | .error e => .error e
      | .ok false => .ok none
      | .ok true =>
          match pyIndexE current k with
          | .error e => .error e
          | .ok next => navFinal next rest

/-- The dotted-key branch of `_matches_query` (`"." in key`). -/
def matchDotted (doc : Doc) (keys : List String) (value : Value) :
    Except Unit (Option Bool) :=
  match navFinal (.obj doc) keys with
  | .error e => .error e
  | .ok none => .ok (some false)
  | .ok (some (current, finalKey)) =>
      match pyMem (.str finalKey) current with
      | .error e => .error e
      | .ok false => .ok (some false)
      | .ok true =>
          match value with
          | .obj vfields =>
              if docMem vfields "$in" then
                match pyIndexE current finalKey with
                | .error e => .error e
                | .ok (.arr items) =>
                    match docLookup vfields "$in" with
                    | some inv =>
                        match pyIterE inv with
                        | .error e => .error e
                        | .ok its =>
                            .ok (some (its.any (fun item =>
                              items.any (fun e => pyEq e item))))
                    | none => .error ()
                | .ok _ => .ok (some false)
              else if docMem vfields "$gte" then
                match pyIndexE current finalKey with
                | .error e => .error e
                | .ok fv =>
                    match docLookup vfields "$gte" with
                    | some gv =>
                        match pyGe fv gv with
                        | .error e => .error e
                        | .ok b => .ok (some b)
                    | none => .error ()
              else if docMem vfields "$lte" then
                match pyIndexE current finalKey with
                | .error e => .error e
                | .ok fv =>
                    match docLookup vfields "$lte" with
                    | some lv =>
                        match pyLe fv lv with
                        | .error e => .error e
                        | .ok b => .ok (some b)
                    | none => .error ()
              else .ok none
          | _ =>
              match pyIndexE current finalKey with
              | .error e => .error e
              | .ok fv => .ok (some (pyEq fv value))

/-- The `for op, op_value in value.items()` loop of the plain-key
branch: `$gte`, `$lte` and `$in` may `return False`, unknown operators
are skipped. -/
def opsLoop (fv : Value) : List (String × Value) → Except Unit (Option Bool)
  | [] => .ok none
  | (op, opv) :: rest =>
      if op == "$gte" then
        match pyLt fv opv with
        | .error e => .error e
        | .ok true => .ok (some false)
        | .ok false => opsLoop fv rest
      else if op == "$lte" then
        match pyGt fv opv with
        | .error e => .error e
        | .ok true => .ok (some false)
        | .ok false => opsLoop fv rest
      else if op == "$in" then
        match pyMem fv opv with
        | .error e => .error e
        | .ok false => .ok (some false)
        | .ok true => opsLoop fv rest
      else opsLoop fv rest

/-- The plain-key branch of `_matches_query`. -/
def matchPlain (doc : Doc) (key : String) (value : Value) :
    Except Unit (Option Bool) :=
  match docLookup doc key with
  | none => .ok (some false)
  | some fv =>
      match value with
      | .obj ops => opsLoop fv ops
      | _ => if pyEq fv value then .ok none else .ok (some false)

/-- One iteration of the `for key, value in query.items()` loop. -/
def matchEntry (doc : Doc) (key : String) (value : Value) :
    Except Unit (Option Bool) :=
  if substrB key "." then matchDotted doc (pySplitDot key) value
  else matchPlain doc key value

/-- `MockCollection._matches_query`: iterate the query entries in
order; an entry may `return` a verdict immediately (in particular, the
dotted-key branch returns the first dotted condition's result without
looking at later entries), otherwise fall through; `True` after the
loop. -/
def _matches_query (doc : Doc) : Query → Except Unit Bool
  | [] => .ok true
  | (k, v) :: rest =>
      match matchEntry doc k v with
      | .error e => .error e
      | .ok (some b) => .ok b
      | .ok none => _matches_query doc rest

/-! Section: The collection store

`MockCollection.data` is a Python dict keyed by document identifiers
(the `_id` values), modelled as an insertion-ordered association list;
identifier keys are compared with Python `==` (after the hashability
check that a real dict performs). -/

/-- `data[k]`-style lookup by Python equality of keys (membership and
subscript on an existing key agree, so one helper serves both). -/
def dataFind? : List (Value × Doc) → Value → Option Doc
  | [], _ => none
  | (k0, v0) :: rest, k => if pyEq k0 k then some v0 else dataFind? rest k

/-- `data[k] = v`: hash-based dicts locate an existing equal key and
replace its value in place (keeping the original key object), otherwise
append the new entry. -/
def dataSet : List (Value × Doc) → Value → Doc → List (Value × Doc)
  | [], k, v => [(k, v)]
  | (k0, v0) :: rest, k, v =>
      if pyEq k0 k then (k0, v) :: rest else (k0, v0) :: dataSet rest k v

/-- `data[k]` as an expression: raises `TypeError` on an unhashable key
and `KeyError` on a missing one. -/
def dataGetE (data : List (Value × Doc)) (k : Value) : Except Unit Doc :=
  if hashableB k then
    match dataFind? data k with
    | some b => .ok b
    | none => .error ()
  else .error ()

/-- The dict display `{"_id": doc_id, **body}` used by `find`/`find_one`:
start from the identifier entry and merge the stored body over it (a
body's own `"_id"` entry, as present in seeded documents, overwrites in
place). -/
def withId (docId : Value) (body : Doc) : Doc :=
  body.foldl (fun acc kv => docSet acc kv.1 kv.2) [("_id", docId)]

structure MockCollection where
  data : List (Value × Doc)

/-- The scan loop shared by `find`: collect `{"_id": k, **v}` for every
matching document in insertion order. -/
def findScan (q : Query) : List (Value × Doc) → Except Unit (List Doc)
  | [] => .ok []
  | (k, body) :: rest =>
      match _matches_query body q with
      | .error e => .error e
      | .ok true =>
          match findScan q rest with
          | .error e => .error e
          | .ok ds => .ok (withId k body :: ds)
      | .ok false => findScan q rest

/-- `MockCollection.find`: a falsy query (`None` or `{}`, modelled as
`[]`) returns every document; otherwise all documents accepted by the
matcher. -/
def find (c : MockCollection) (q : Query) : Except Unit (List Doc) :=
  if q.isEmpty then .ok (c.data.map (fun kv => withId kv.1 kv.2))
  else findScan q c.data

/-- The scan loop of `find_one`: first match or `None`. -/
def findOneScan (q : Query) : List (Value × Doc) → Except Unit (Option Doc)
  | [] => .ok none
  | (k, body) :: rest =>
      match _matches_query body q with
      | .error e => .error e
      | .ok true => .ok (some (withId k body))
      | .ok false => findOneScan q rest

/-- `MockCollection.find_one`: when `"_id"` occurs in the query, do a
direct dict lookup on its value (hashing it, so a mapping/list value
raises `TypeError`) and ignore every other query entry; otherwise scan
with the matcher. -/
def find_one (c : MockCollection) (q : Query) : Except Unit (Option Doc) :=
  match docLookup q "_id" with
  | some docId =>
      if hashableB docId then
        match dataFind? c.data docId with
        | some body => .ok (some (withId docId body))
        | none => .ok none
      else .error ()
  | none => findOneScan q c.data

/-- `MockCollection.insert_one`: requires an `"_id"` field (else
`KeyError`), strips it from the stored body, overwrites any existing
entry with an equal identifier, and returns the inserted identifier. -/
def insert_one (c : MockCollection) (document : Doc) :
    Except Unit (MockCollection × Value) :=
  match docLookup document "_id" with
  | none => .error ()
  | some docId =>
      if hashableB docId then
        .ok (⟨dataSet c.data docId (docDel document "_id")⟩, docId)
      else .error ()

/-- The `for field, value in update["$push"].items()` loop: each step
re-reads `self.data[doc_id]`, creates the field as `[]` when absent, and
appends (a non-list field raises `AttributeError`). -/
def pushFold (data : List (Value × Doc)) (docId : Value) :
    List (String × Value) → Except Unit (List (Value × Doc))
  | [] => .ok data
  | (field, v) :: rest =>
      match dataGetE data docId with
      | .error e => .error e
      | .ok body =>
          let data1 :=
            if docMem body field then data
            else dataSet data docId (docSet body field (.arr []))
          match dataGetE data1 docId with
          | .error e => .error e
          | .ok body1 =>
              match docLookup body1 field with
              | some (.arr elems) =>
                  pushFold (dataSet data1 docId
                    (docSet body1 field (.arr (elems ++ [v])))) docId rest
              | some _ => .error ()
              | none => .error ()

/-- Python `lst.remove(v)`: drop the first element equal to `v`. -/
def removeFirst : List Value → Value → List Value
  | [], _ => []
  | e :: rest, v => if pyEq e v then rest else e :: removeFirst rest v

/-- The `for field, value in update["$pull"].items()` loop: only acts
when the field exists, is a list, and contains the value. -/
def pullFold (data : List (Value × Doc)) (docId : Value) :
    List (String × Value) → Except Unit (List (Value × Doc))
  | [] => .ok data
  | (field, v) :: rest =>
      match dataGetE data docId with
      | .error e => .error e
      | .ok body =>
          match docLookup body field with
          | some (.arr elems) =>
              if elems.any (fun e => pyEq e v) then
                pullFold (dataSet data docId
                  (docSet body field (.arr (removeFirst elems v)))) docId rest
              else pullFold data docId rest
          | _ => pullFold data docId rest

/-- `if "$push" in update:` block (`\.items()` on a non-dict raises). -/
def pushBlock (data : List (Value × Doc)) (docId : Value) (update : Query) :
    Except Unit (List (Value × Doc)) :=
  if docMem update "$push" then
    match docLookup update "$push" with
    | some (.obj fields) => pushFold data docId fields
    | some _ => .error ()
    | none => .error ()
  else .ok data

/-- `if "$pull" in update:` block. -/
def pullBlock (data : List (Value × Doc)) (docId : Value) (update : Query) :
    Except Unit (List (Value × Doc)) :=
  if docMem update "$pull" then
    match docLookup update "$pull" with
    | some (.obj fields) => pullFold data docId fields
    | some _ => .error ()
    | none => .error ()
  else .ok data

/-- `MockCollection.update_one`: locate one document via `find_one`
semantics (`if not doc:` is also true for an empty dict); report zero
modifications when none is found; otherwise apply the `$push` block then
the `$pull` block to `self.data[doc["_id"]]` and report one
modification.  Unsupported operators are ignored. -/
def update_one (c : MockCollection) (q update : Query) :
    Except Unit (MockCollection × Nat) :=
  match find_one c q with
  | .error e => .error e
  | .ok none => .ok (c, 0)
  | .ok (some d) =>
      if d.isEmpty then .ok (c, 0)
      else
        match docLookup d "_id" with
        | none => .error ()
        | some docId =>
            match pushBlock c.data docId update with
            | .error e => .error e
            | .ok data1 =>
                match pullBlock data1 docId update with
                | .error e => .error e
                | .ok data2 => .ok (⟨data2⟩, 1)

/-- `MockCollection.count_documents`: `len(self.find(query or {}))`
(`query or {}` is the identity on our `Query` model, since `None` and
`{}` are both modelled as `[]`). -/
def count_documents (c : MockCollection) (q : Query) : Except Unit Nat :=
  Except.map List.length (find c q)

/-! Section: The aggregation shim (`MockCollection.aggregate`)

Python's `days` variable is a `set`; its iteration order is
implementation-defined, so we model it as a duplicate-free list in
first-insertion order.  The claims proved below are insensitive to this
choice: whenever the subsequent sort matters, the day keys are pairwise
distinct, so the sorted output is the same for every iteration order. -/

/-- `days.add(day)` over a list of days (`set.add` hashes its argument,
so a list/dict day raises `TypeError`). -/
def addDays (days : List Value) : List Value → Except Unit (List Value)
  | [] => .ok days
  | d :: rest =>
      if hashableB d then
        addDays (if days.any (fun e => pyEq e d) then days else days ++ [d]) rest
      else .error ()

/-- The `for doc in self.data.values()` day-collection loop. -/
def collectDays : List (Value × Doc) → List Value → Except Unit (List Value)
  | [], days => .ok days
  | (_, doc) :: rest, days =>
      match docLookup doc "schedule_details" with
      | none => collectDays rest days
      | some sd =>
          match pyMem (.str "days") sd with
          | .error e => .error e
          | .ok false => collectDays rest days
          | .ok true =>
              match pyIndexE sd "days" with
              | .error e => .error e
              | .ok dv =>
                  match pyIterE dv with
                  | .error e => .error e
                  | .ok items =>
                      match addDays days items with
                      | .error e => .error e
                      | .ok days2 => collectDays rest days2

def day_order : List String :=
  ["Monday", "Tuesday", "Wednesday", "Thursday", "Friday", "Saturday", "Sunday"]

/-- The sort key `day_order.index(x) if x in day_order else 999`. -/
def dayKey : Value → Nat
  | .str s => if day_order.contains s then day_order.indexOf s else 999
  | _ => 999

/-- Stable insertion into a key-sorted list (equal keys keep the
earlier element first, like Python's stable `sorted`). -/
def insertByKey (x : Value) : List Value → List Value
  | [] => [x]
  | y :: ys => if dayKey y ≤ dayKey x then y :: insertByKey x ys else x :: y :: ys

/-- `sorted(days, key=...)` (stable). -/
def sortDays (days : List Value) : List Value :=
  days.foldl (fun acc d => insertByKey d acc) []

/-- `MockCollection.aggregate`: recognizes only
`len(pipeline) >= 2 and pipeline[0].get("$unwind") and
pipeline[1].get("$group")` (truthiness checks); then the `$unwind`
value has all dollar signs removed (a non-string raises
`AttributeError`); only the field `schedule_details.days` is handled,
producing one `{"_id": day}` document per distinct day in canonical
weekday order; everything else yields `[]`. -/
def aggregate (c : MockCollection) (pipeline : List Doc) :
    Except Unit (List Doc) :=
  match pipeline with
  | p0 :: p1 :: _ =>
      if truthyOpt (docLookup p0 "$unwind") && truthyOpt (docLookup p1 "$group") then
        match docLookup p0 "$unwind" with
        | some (.str s) =>
            if stripDollars s == "schedule_details.days" then
              match collectDays c.data [] with
              | .error e => .error e
              | .ok days => .ok ((sortDays days).map (fun d => [("_id", d)]))
            else .ok []
        | _ => .error ()
      else .ok []
  | _ => .ok []

/-! Section: Seeding (`init_mock_database`)

The password hasher (`argon2.PasswordHasher().hash`) is an external,
salted (non-deterministic) function; it is modelled as an arbitrary
function parameter `hash_password`, which the proved properties are
universal over. -/

/-- `MockCollection.__init__`: `self.data[item["_id"]] = deepcopy(item)`
for each item, in order.  Note the `"_id"` field is kept inside the
stored body (unlike `insert_one`, which strips it). -/
def initColl : List Doc → Except Unit MockCollection :=
  go []
where
  go (data : List (Value × Doc)) : List Doc → Except Unit MockCollection
    | [] => .ok ⟨data⟩
    | item :: rest =>
        match docLookup item "_id" with
        | none => .error ()
        | some k =>
            if hashableB k then go (dataSet data k item) rest
            else .error ()

def initial_activities : List Doc :=
  [ [ ("_id", .str "Chess Club"),
      ("description", .str "Learn strategies and compete in chess tournaments"),
      ("schedule", .str "Mondays and Fridays, 3:15 PM - 4:45 PM"),
      ("schedule_details", .obj
        [ ("days", .arr [.str "Monday", .str "Friday"]),
          ("start_time", .str "15:15"),
          ("end_time", .str "16:45") ]),
      ("max_participants", .int 12),
      ("participants", .arr [.str "michael@mergington.edu", .str "daniel@mergington.edu"]) ],
    [ ("_id", .str "Programming Class"),
      ("description", .str "Learn programming fundamentals and build software projects"),
      ("schedule", .str "Tuesdays and Thursdays, 7:00 AM - 8:00 AM"),
      ("schedule_details", .obj
        [ ("days", .arr [.str "Tuesday", .str "Thursday"]),
          ("start_time", .str "07:00"),
          ("end_time", .str "08:00") ]),
      ("max_participants", .int 20),
      ("participants", .arr [.str "emma@mergington.edu", .str "sophia@mergington.edu"]) ],
    [ ("_id", .str "Morning Fitness"),
      ("description", .str "Early morning physical training and exercises"),
      ("schedule", .str "Mondays, Wednesdays, Fridays, 6:30 AM - 7:45 AM"),
      ("schedule_details", .obj
        [ ("days", .arr [.str "Monday", .str "Wednesday", .str "Friday"]),
          ("start_time", .str "06:30"),
          ("end_time", .str "07:45") ]),
      ("max_participants", .int 30),
      ("participants", .arr [.str "john@mergington.edu", .str "olivia@mergington.edu"]) ],
    [ ("_id", .str "Soccer Team"),
      ("description", .str "Join the school soccer team and compete in matches"),
      ("schedule", .str "Tuesdays and Thursdays, 3:30 PM - 5:30 PM"),
      ("schedule_details", .obj
        [ ("days", .arr [.str "Tuesday", .str "Thursday"]),
          ("start_time", .str "15:30"),
          ("end_time", .str "17:30") ]),
      ("max_participants", .int 22),
      ("participants", .arr [.str "liam@mergington.edu", .str "noah@mergington.edu"]) ],
    [ ("_id", .str "Basketball Team"),
      ("description", .str "Practice and compete in basketball tournaments"),
      ("schedule", .str "Wednesdays and Fridays, 3:15 PM - 5:00 PM"),
      ("schedule_details", .obj
        [ ("days", .arr [.str "Wednesday", .str "Friday"]),
          ("start_time", .str "15:15"),
          ("end_time", .str "17:00") ]),
      ("max_participants", .int 15),
      ("participants", .arr [.str "ava@mergington.edu", .str "mia@mergington.edu"]) ],
    [ ("_id", .str "Art Club"),
      ("description", .str "Explore various art techniques and create masterpieces"),
      ("schedule", .str "Thursdays, 3:15 PM - 5:00 PM"),
      ("schedule_details", .obj
        [ ("days", .arr [.str "Thursday"]),
          ("start_time", .str "15:15"),
          ("end_time", .str "17:00") ]),
      ("max_participants", .int 15),
      ("participants", .arr [.str "amelia@mergington.edu", .str "harper@mergington.edu"]) ],
    [ ("_id", .str "Drama Club"),
      ("description", .str "Act, direct, and produce plays and performances"),
      ("schedule", .str "Mondays and Wednesdays, 3:30 PM - 5:30 PM"),
      ("schedule_details", .obj
        [ ("days", .arr [.str "Monday", .str "Wednesday"]),
          ("start_time", .str "15:30"),
          ("end_time", .str "17:30") ]),
      ("max_participants", .int 20),
      ("participants", .arr [.str "ella@mergington.edu", .str "scarlett@mergington.edu"]) ],
    [ ("_id", .str "Math Club"),
      ("description", .str "Solve challenging problems and prepare for math competitions"),
      ("schedule", .str "Tuesdays, 7:15 AM - 8:00 AM"),
      ("schedule_details", .obj
        [ ("days", .arr [.str "Tuesday"]),
          ("start_time", .str "07:15"),
          ("end_time", .str "08:00") ]),
      ("max_participants", .int 10),
      ("participants", .arr [.str "james@mergington.edu", .str "benjamin@mergington.edu"]) ],
    [ ("_id", .str "Debate Team"),
      ("description", .str "Develop public speaking and argumentation skills"),
      ("schedule", .str "Fridays, 3:30 PM - 5:30 PM"),
      ("schedule_details", .obj
        [ ("days", .arr [.str "Friday"]),
          ("start_time", .str "15:30"),
          ("end_time", .str "17:30") ]),
      ("max_participants", .int 12),
      ("participants", .arr [.str "charlotte@mergington.edu", .str "amelia@mergington.edu"]) ],
    [ ("_id", .str "Weekend Robotics Workshop"),
      ("description", .str "Build and program robots in our state-of-the-art workshop"),
      ("schedule", .str "Saturdays, 10:00 AM - 2:00 PM"),
      ("schedule_details", .obj
        [ ("days", .arr [.str "Saturday"]),
          ("start_time", .str "10:00"),
          ("end_time", .str "14:00") ]),
      ("max_participants", .int 15),
      ("participants", .arr [.str "ethan@mergington.edu", .str "oliver@mergington.edu"]) ],
    [ ("_id", .str "Science Olympiad"),
      ("description", .str "Weekend science competition preparation for regional and state events"),
      ("schedule", .str "Saturdays, 1:00 PM - 4:00 PM"),
      ("schedule_details", .obj
        [ ("days", .arr [.str "Saturday"]),
          ("start_time", .str "13:00"),
          ("end_time", .str "16:00") ]),
      ("max_participants", .int 18),
      ("participants", .arr [.str "isabella@mergington.edu", .str "lucas@mergington.edu"]) ],
    [ ("_id", .str "Sunday Chess Tournament"),
      ("description", .str "Weekly tournament for serious chess players with rankings"),
      ("schedule", .str "Sundays, 2:00 PM - 5:00 PM"),
      ("schedule_details", .obj
        [ ("days", .arr [.str "Sunday"]),
          ("start_time", .str "14:00"),
          ("end_time", .str "17:00") ]),
      ("max_participants", .int 16),
      ("participants", .arr [.str "william@mergington.edu", .str "jacob@mergington.edu"]) ],
    [ ("_id", .str "Manga Maniacs"),
      ("description", .str "Explore the fantastic stories of the most interesting characters from Japanese Manga (graphic novels)"),
      ("schedule", .str "Tuesdays, 7:00 PM - 8:00 PM"),
      ("schedule_details", .obj
        [ ("days", .arr [.str "Tuesday"]),
          ("start_time", .str "19:00"),
          ("end_time", .str "20:00") ]),
      ("max_participants", .int 15),
      ("participants", .arr []) ] ]

def initial_teachers (hash_password : String → String) : List Doc :=
  [ [ ("_id", .str "mrodriguez"),
      ("display_name", .str "Ms. Rodriguez"),
      ("password", .str (hash_password "art123")),
      ("role", .str "teacher") ],
    [ ("_id", .str "mchen"),
      ("display_name", .str "Mr. Chen"),
      ("password", .str (hash_password "chess456")),
      ("role", .str "teacher") ],
    [ ("_id", .str "principal"),
      ("display_name", .str "Principal Martinez"),
      ("password", .str (hash_password "admin789")),
      ("role", .str "admin") ] ]

/-- `init_mock_database`: build the two seeded collections. -/
def init_mock_database (hash_password : String → String) :
    Except Unit (MockCollection × MockCollection) :=
  match initColl initial_activities with
  | .error e => .error e
  | .ok activities_collection =>
      match initColl (initial_teachers hash_password) with
      | .error e => .error e
      | .ok teachers_collection => .ok (activities_collection, teachers_collection)

/-- A sequence of `update_one` calls (used to state the identifier
immutability invariant). -/
def applyUpdates (c : MockCollection) : List (Query × Query) → Except Unit MockCollection
  | [] => .ok c
  | (q, u) :: rest =>
      match update_one c q u with
      | .error e => .error e
      | .ok (c2, _) => applyUpdates c2 rest

/-! Section: Predicates describing the aggregation gate (used to state what
`aggregate` does off the supported pipeline shape) -/

/-- The recognition gate
`len(pipeline) >= 2 and pipeline[0].get("$unwind") and pipeline[1].get("$group")`. -/
def shapeGate (p : List Doc) : Bool :=
  match p with
  | p0 :: p1 :: _ =>
      truthyOpt (docLookup p0 "$unwind") && truthyOpt (docLookup p1 "$group")
  | _ => false

/-- The first stage's `$unwind` value of a two-stage pipeline. -/
def unwindVal? (p : List Doc) : Option Value :=
  match p with
  | p0 :: _ :: _ => docLookup p0 "$unwind"
  | _ => none

/-! Section: Helper lemmas about the dictionary model -/

theorem pyEq_refl_hashable {v : Value} (h : hashableB v = true) : pyEq v v = true := by
  cases v with
  | int n => simp [pyEq]
  | str s => simp [pyEq]
  | arr _ => simp [hashableB] at h
  | obj _ => simp [hashableB] at h

theorem docLookup_eq_none_iff {d : Doc} {k : String} :
    docLookup d k = none ↔ k ∉ d.map Prod.fst := by
  induction d with
  | nil => simp [docLookup]
  | cons hd tl ih =>
    obtain ⟨k0, v0⟩ := hd
    by_cases h0 : (k0 == k) = true
    · have : k0 = k := by simpa using h0
      subst this
      simp [docLookup, h0]
    · have hne : k0 ≠ k := by simpa using h0
      simp [docLookup, h0, ih, hne.symm]

theorem docLookup_append (d1 d2 : Doc) (k : String) :
    docLookup (d1 ++ d2) k =
      match docLookup d1 k with
      | some v => some v
      | none => docLookup d2 k := by
  induction d1 with
  | nil => simp [docLookup]
  | cons hd tl ih =>
    obtain ⟨k0, v0⟩ := hd
    by_cases h0 : (k0 == k) = true
    · simp [docLookup, h0]
    · simp [docLookup, h0, ih]

theorem docLookup_docSet_self (d : Doc) (k : String) (v : Value) :
    docLookup (docSet d k v) k = some v := by
  induction d with
  | nil => simp [docSet, docLookup]
  | cons hd tl ih =>
    obtain ⟨k0, v0⟩ := hd
    by_cases h0 : (k0 == k) = true
    · simp [docSet, docLookup, h0]
    · simp [docSet, docLookup, h0, ih]

theorem docLookup_docSet_ne (d : Doc) {k k2 : String} (v : Value) (h : k2 ≠ k) :
    docLookup (docSet d k v) k2 = docLookup d k2 := by
  have hkk : (k == k2) = false := by
    simpa using fun hh => h (hh.symm)
  induction d with
  | nil => simp [docSet, docLookup, hkk]
  | cons hd tl ih =>
    obtain ⟨k0, v0⟩ := hd
    by_cases h0 : (k0 == k) = true
    · have : k0 = k := by simpa using h0
      subst this
      simp [docSet, docLookup, h0, hkk]
    · simp [docSet, docLookup, h0, ih]

theorem docSet_append {d : Doc} {k : String} (v : Value)
    (h : docLookup d k = none) : docSet d k v = d ++ [(k, v)] := by
  induction d with
  | nil => simp [docSet]
  | cons hd tl ih =>
    obtain ⟨k0, v0⟩ := hd
    by_cases h0 : (k0 == k) = true
    · simp [docLookup, h0] at h
    · simp [docLookup, h0] at h
      simp [docSet, h0, ih h]

theorem docSet_append_self {d : Doc} {k : String} (x v : Value)
    (h : docLookup d k = none) :
    docSet (d ++ [(k, x)]) k v = d ++ [(k, v)] := by
  induction d with
  | nil => simp [docSet]
  | cons hd tl ih =>
    obtain ⟨k0, v0⟩ := hd
    by_cases h0 : (k0 == k) = true
    · simp [docLookup, h0] at h
    · simp [docLookup, h0] at h
      simp [docSet, h0, ih h]

theorem docLookup_append_self {d : Doc} {k : String} (v : Value)
    (h : docLookup d k = none) : docLookup (d ++ [(k, v)]) k = some v := by
  rw [docLookup_append, h]
  simp [docLookup]

theorem docLookup_docDel_ne {d : Doc} {k k2 : String} (h : k2 ≠ k) :
    docLookup (docDel d k) k2 = docLookup d k2 := by
  induction d with
  | nil => simp [docDel]
  | cons hd tl ih =>
    obtain ⟨k0, v0⟩ := hd
    by_cases h0 : (k0 == k) = true
    · have he : k0 = k := by simpa using h0
      have hne : (k0 == k2) = false := by
        rw [beq_eq_false_iff_ne, he]
        exact fun hh => h hh.symm
      simp [docDel, docLookup, h0, hne]
    · simp [docDel, docLookup, h0, ih]

theorem docDel_keys_sublist (d : Doc) (k : String) :
    ((docDel d k).map Prod.fst).Sublist (d.map Prod.fst) := by
  induction d with
  | nil => simp [docDel]
  | cons hd tl ih =>
    obtain ⟨k0, v0⟩ := hd
    by_cases h0 : (k0 == k) = true
    · simp only [docDel, h0, if_true, List.map_cons]
      exact List.sublist_cons_self _ _
    · simp only [docDel, h0, if_false, List.map_cons]
      exact List.Sublist.cons₂ _ ih

theorem docLookup_docDel_self {d : Doc} {k : String}
    (h : (d.map Prod.fst).Nodup) : docLookup (docDel d k) k = none := by
  induction d with
  | nil => simp [docDel, docLookup]
  | cons hd tl ih =>
    obtain ⟨k0, v0⟩ := hd
    by_cases h0 : (k0 == k) = true
    · have he : k0 = k := by simpa using h0
      subst he
      simp only [docDel, h0, if_true]
      rw [docLookup_eq_none_iff]
      simp only [List.map_cons, List.nodup_cons] at h
      exact h.1
    · simp only [docDel, h0, if_false]
      simp only [List.map_cons, List.nodup_cons] at h
      simp [docLookup, h0, ih h.2]

theorem dataFind?_dataSet {data : List (Value × Doc)} {k : Value} (v : Doc)
    (hk : pyEq k k = true) : dataFind? (dataSet data k v) k = some v := by
  induction data with
  | nil => simp [dataSet, dataFind?, hk]
  | cons hd tl ih =>
    obtain ⟨k0, v0⟩ := hd
    by_cases h0 : pyEq k0 k = true
    · simp [dataSet, dataFind?, h0]
    · simp [dataSet, dataFind?, h0, ih]

theorem dataSet_keys {data : List (Value × Doc)} {k : Value} {b : Doc} (v : Doc)
    (h : dataFind? data k = some b) :
    (dataSet data k v).map Prod.fst = data.map Prod.fst := by
  induction data with
  | nil => simp [dataFind?] at h
  | cons hd tl ih =>
    obtain ⟨k0, v0⟩ := hd
    by_cases h0 : pyEq k0 k = true
    · simp [dataSet, h0]
    · simp [dataFind?, h0] at h
      simp [dataSet, h0, ih h]

theorem dataFind?_isSome_of_keys {d1 d2 : List (Value × Doc)} {k : Value}
    (h : d1.map Prod.fst = d2.map Prod.fst) :
    (dataFind? d1 k).isSome = (dataFind? d2 k).isSome := by
  induction d1 generalizing d2 with
  | nil =>
    cases d2 with
    | nil => rfl
    | cons hd tl => simp at h
  | cons hd tl ih =>
    cases d2 with
    | nil => simp at h
    | cons hd2 tl2 =>
      obtain ⟨k0, v0⟩ := hd
      obtain ⟨k2, v2⟩ := hd2
      simp only [List.map_cons, List.cons.injEq] at h
      obtain ⟨hk, ht⟩ := h
      subst hk
      by_cases h0 : pyEq k0 k = true
      · simp [dataFind?, h0]
      · simp [dataFind?, h0, ih ht]

theorem dataGetE_ok {data : List (Value × Doc)} {k : Value} {b : Doc}
    (h : dataGetE data k = .ok b) :
    hashableB k = true ∧ dataFind? data k = some b := by
  unfold dataGetE at h
  by_cases hh : hashableB k = true
  · rw [if_pos hh] at h
    refine ⟨hh, ?_⟩
    cases hfind : dataFind? data k with
    | none => rw [hfind] at h; simp at h
    | some b2 =>
        rw [hfind] at h
        simp only [Except.ok.injEq] at h
        rw [h]
  · rw [if_neg hh] at h
    simp at h

theorem dataGetE_of_find {data : List (Value × Doc)} {k : Value} {b : Doc}
    (hh : hashableB k = true) (h : dataFind? data k = some b) :
    dataGetE data k = .ok b := by
  unfold dataGetE
  rw [if_pos hh, h]

theorem isEmpty_eq_false_of_lookup {d : Doc} {k : String} {v : Value}
    (h : docLookup d k = some v) : d.isEmpty = false := by
  cases d with
  | nil => simp [docLookup] at h
  | cons hd tl => rfl

/-! Section: Lemmas about `withId` -/

theorem foldl_docSet_fresh :
    ∀ (body acc : Doc),
      (∀ kv ∈ body, docLookup acc kv.1 = none) →
      (body.map Prod.fst).Nodup →
      body.foldl (fun a kv => docSet a kv.1 kv.2) acc = acc ++ body := by
  intro body
  induction body with
  | nil => intro acc _ _; simp
  | cons hd rest ih =>
    intro acc hfresh hnd
    obtain ⟨k, v⟩ := hd
    simp only [List.foldl_cons]
    rw [docSet_append v (hfresh (k, v) (by simp))]
    rw [ih (acc ++ [(k, v)]) ?_ ?_]
    · simp
    · intro kv hm
      rw [docLookup_append]
      rw [hfresh kv (by simp [hm])]
      have hk : kv.1 ≠ k := by
        simp only [List.map_cons, List.nodup_cons] at hnd
        intro hkk
        exact hnd.1 (hkk ▸ List.mem_map_of_mem Prod.fst hm)
      have : (k == kv.1) = false := by
        rw [beq_eq_false_iff_ne]
        exact fun hh => hk hh.symm
      simp [docLookup, this]
    · simp only [List.map_cons, List.nodup_cons] at hnd
      exact hnd.2

theorem withId_fresh {body : Doc} (docId : Value)
    (hid : ∀ kv ∈ body, kv.1 ≠ "_id")
    (hnd : (body.map Prod.fst).Nodup) :
    withId docId body = ("_id", docId) :: body := by
  unfold withId
  rw [foldl_docSet_fresh body [("_id", docId)] ?_ hnd]
  · simp
  · intro kv hm
    have : ("_id" == kv.1) = false := by
      rw [beq_eq_false_iff_ne]
      exact fun hh => hid kv hm hh.symm
    simp [docLookup, this]

theorem foldl_docSet_lookup_id :
    ∀ (body acc : Doc) (docId : Value),
      docLookup acc "_id" = some docId →
      (∀ kv ∈ body, kv.1 = "_id" → kv.2 = docId) →
      docLookup (body.foldl (fun a kv => docSet a kv.1 kv.2) acc) "_id" = some docId := by
  intro body
  induction body with
  | nil => intro acc docId hacc _; simpa using hacc
  | cons hd rest ih =>
    intro acc docId hacc hwf
    obtain ⟨k, v⟩ := hd
    simp only [List.foldl_cons]
    by_cases hk : k = "_id"
    · subst hk
      have hv : v = docId := hwf _ (List.mem_cons_self _ _) rfl
      subst hv
      exact ih _ _ (by rw [docLookup_docSet_self]) (fun kv hm => hwf kv (by simp [hm]))
    · refine ih _ _ ?_ (fun kv hm => hwf kv (by simp [hm]))
      rw [docLookup_docSet_ne _ _ (fun hh => hk hh.symm)]
      exact hacc

theorem withId_lookup_id {body : Doc} (docId : Value)
    (hwf : ∀ kv ∈ body, kv.1 = "_id" → kv.2 = docId) :
    docLookup (withId docId body) "_id" = some docId := by
  unfold withId
  exact foldl_docSet_lookup_id body [("_id", docId)] docId (by simp [docLookup]) hwf

/-! Section: Lemmas about `removeFirst` and key preservation of updates -/

theorem removeFirst_append {l1 l2 : List Value} {e v : Value}
    (h1 : ∀ a ∈ l1, pyEq a v = false) (he : pyEq e v = true) :
    removeFirst (l1 ++ e :: l2) v = l1 ++ l2 := by
  induction l1 with
  | nil => simp [removeFirst, he]
  | cons a rest ih =>
    have ha : pyEq a v = false := h1 a (by simp)
    simp only [List.cons_append, removeFirst, ha]
    simp only [Bool.false_eq_true, if_false, List.cons.injEq, true_and]
    exact ih (fun a2 hm => h1 a2 (by simp [hm]))

theorem pushFold_keys :
    ∀ (fields : List (String × Value)) (data : List (Value × Doc)) (docId : Value)
      (data2 : List (Value × Doc)),
      pushFold data docId fields = .ok data2 →
      data2.map Prod.fst = data.map Prod.fst := by
  intro fields
  induction fields with
  | nil =>
    intro data docId data2 h
    simp only [pushFold, Except.ok.injEq] at h
    rw [h]
  | cons hd rest ih =>
    intro data docId data2 h
    obtain ⟨field, v⟩ := hd
    simp only [pushFold] at h
    cases hget : dataGetE data docId with
    | error e => rw [hget] at h; simp at h
    | ok body =>
      rw [hget] at h
      simp only at h
      obtain ⟨hh, hfind⟩ := dataGetE_ok hget
      have hpy : pyEq docId docId = true := pyEq_refl_hashable hh
      by_cases hm : docMem body field = true
      · rw [if_pos hm] at h
        rw [hget] at h
        simp only at h
        cases hl : docLookup body field with
        | none => rw [hl] at h; simp at h
        | some fv =>
          rw [hl] at h
          cases fv with
          | arr elems =>
            have := ih _ _ _ h
            rw [this, dataSet_keys _ hfind]
          | int n => simp at h
          | str s => simp at h
          | obj fs => simp at h
      · rw [if_neg hm] at h
        have hget1 : dataGetE (dataSet data docId (docSet body field (.arr []))) docId =
            .ok (docSet body field (.arr [])) :=
          dataGetE_of_find hh (dataFind?_dataSet _ hpy)
        rw [hget1] at h
        simp only at h
        cases hl : docLookup (docSet body field (.arr [])) field with
        | none => rw [hl] at h; simp at h
        | some fv =>
          rw [hl] at h
          cases fv with
          | arr elems =>
            have := ih _ _ _ h
            rw [this]
            rw [dataSet_keys _ (dataFind?_dataSet _ hpy)]
            exact dataSet_keys _ hfind
          | int n => simp at h
          | str s => simp at h
          | obj fs => simp at h

theorem pullFold_keys :
    ∀ (fields : List (String × Value)) (data : List (Value × Doc)) (docId : Value)
      (data2 : List (Value × Doc)),
      pullFold data docId fields = .ok data2 →
      data2.map Prod.fst = data.map Prod.fst := by
  intro fields
  induction fields with
  | nil =>
    intro data docId data2 h
    simp only [pullFold, Except.ok.injEq] at h
    rw [h]
  | cons hd rest ih =>
    intro data docId data2 h
    obtain ⟨field, v⟩ := hd
    simp only [pullFold] at h
    cases hget : dataGetE data docId with
    | error e => rw [hget] at h; simp at h
    | ok body =>
      rw [hget] at h
      simp only at h
      obtain ⟨hh, hfind⟩ := dataGetE_ok hget
      split at h
      · split at h
        · have := ih _ _ _ h
          rw [this, dataSet_keys _ hfind]
        · exact ih _ _ _ h
      · exact ih _ _ _ h

theorem pushBlock_keys {data : List (Value × Doc)} {docId : Value} {u : Query}
    {data2 : List (Value × Doc)} (h : pushBlock data docId u = .ok data2) :
    data2.map Prod.fst = data.map Prod.fst := by
  unfold pushBlock at h
  by_cases hm : docMem u "$push" = true
  · rw [if_pos hm] at h
    cases hl : docLookup u "$push" with
    | none => rw [hl] at h; simp at h
    | some uv =>
      rw [hl] at h
      cases uv with
      | obj fields => exact pushFold_keys fields data docId data2 h
      | int n => simp at h
      | str s => simp at h
      | arr es => simp at h
  · rw [if_neg hm] at h
    simp only [Except.ok.injEq] at h
    rw [h]

theorem pullBlock_keys {data : List (Value × Doc)} {docId : Value} {u : Query}
    {data2 : List (Value × Doc)} (h : pullBlock data docId u = .ok data2) :
    data2.map Prod.fst = data.map Prod.fst := by
  unfold pullBlock at h
  by_cases hm : docMem u "$pull" = true
  · rw [if_pos hm] at h
    cases hl : docLookup u "$pull" with
    | none => rw [hl] at h; simp at h
    | some uv =>
      rw [hl] at h
      cases uv with
      | obj fields => exact pullFold_keys fields data docId data2 h
      | int n => simp at h
      | str s => simp at h
      | arr es => simp at h
  · rw [if_neg hm] at h
    simp only [Except.ok.injEq] at h
    rw [h]

theorem update_one_keys {c : MockCollection} {q u : Query} {c2 : MockCollection}
    {n : Nat} (h : update_one c q u = .ok (c2, n)) :
    c2.data.map Prod.fst = c.data.map Prod.fst := by
  unfold update_one at h
  cases hfo : find_one c q with
  | error e => rw [hfo] at h; simp at h
  | ok od =>
    rw [hfo] at h
    cases od with
    | none =>
      simp only [Except.ok.injEq, Prod.mk.injEq] at h
      rw [h.1]
    | some d =>
      simp only at h
      by_cases hde : d.isEmpty = true
      · rw [if_pos hde] at h
        simp only [Except.ok.injEq, Prod.mk.injEq] at h
        rw [h.1]
      · rw [if_neg hde] at h
        split at h
        · simp at h
        next docId hl =>
          split at h
          · simp at h
          next data1 hpb =>
            split at h
            · simp at h
            next data2 hpl =>
              simp only [Except.ok.injEq, Prod.mk.injEq] at h
              have h1 := pushBlock_keys hpb
              have h2 := pullBlock_keys hpl
              rw [← h.1]
              exact h2.trans h1

theorem applyUpdates_keys :
    ∀ (ops : List (Query × Query)) (c c2 : MockCollection),
      applyUpdates c ops = .ok c2 →
      c2.data.map Prod.fst = c.data.map Prod.fst := by
  intro ops
  induction ops with
  | nil =>
    intro c c2 h
    simp only [applyUpdates, Except.ok.injEq] at h
    rw [h]
  | cons hd rest ih =>
    intro c c2 h
    obtain ⟨q, u⟩ := hd
    simp only [applyUpdates] at h
    cases hu : update_one c q u with
    | error e => rw [hu] at h; simp at h
    | ok p =>
      rw [hu] at h
      obtain ⟨c1, n⟩ := p
      simp only at h
      rw [ih _ _ h, update_one_keys hu]

/-- A truthy `"$group"` stage value is only checked for truthiness, so it
can be replaced by any other truthy value without changing `aggregate`. -/
theorem agg_group_truthy (g : Value) (hg : pyTruthy g = true) (c : MockCollection)
    (p0 : Doc) (rest : List Doc) :
    aggregate c (p0 :: [("$group", g)] :: rest) =
      aggregate c (p0 :: [("$group", .int 1)] :: rest) := by
  have h1 : truthyOpt (docLookup [(("$group" : String), g)] "$group") = true := by
    simp [docLookup, truthyOpt, hg]
  have h2 : truthyOpt (docLookup [(("$group" : String), Value.int 1)] "$group") = true := by
    simp [docLookup, truthyOpt, pyTruthy]
  simp only [aggregate, h1, h2]

/-! Section: The claims -/

/-- C1: the spec (and this claim) state that the matcher is a logical
AND over all query entries, dotted and plain alike; the code instead
returns the first dotted entry's verdict immediately, ignoring later
entries (the spec itself flags this as a likely latent defect).  At the
failing input below, the query `{"a.b": 1, "c": 2}` is reported as a
match for the document `{"a": {"b": 1}, "c": 1}` although its entry
`{"c": 2}` does not match, and `count_documents` consequently counts the
document. -/
theorem c1_matcher_not_conjunctive :
    _matches_query [("a", .obj [("b", .int 1)]), ("c", .int 1)]
      [("a.b", .int 1), ("c", .int 2)] = .ok true ∧
    _matches_query [("a", .obj [("b", .int 1)]), ("c", .int 1)]
      [("c", .int 2)] = .ok false ∧
    count_documents ⟨[(.str "d1", [("a", .obj [("b", .int 1)]), ("c", .int 1)])]⟩
      [("a.b", .int 1), ("c", .int 2)] = .ok 1 :=
  ⟨rfl, rfl, rfl⟩

/-- C2 (counterexample): the claim says a fresh `init_mock_database`
activities collection counts 12 documents with no filter; the source in
fact seeds thirteen activity records, so `count_documents` returns 13. -/
theorem c2_seed_count_not_twelve :
    Except.bind (init_mock_database (fun s => s))
      (fun p => count_documents p.1 []) = .ok 13 ∧
    (Except.ok 13 : Except Unit Nat) ≠ .ok 12 :=
  ⟨rfl, by simp⟩

/-- C2 (amended): immediately after `init_mock_database` and before any
mutation, `count_documents` with no filter returns 13 on the activities
collection (the source seeds thirteen activity records) and 3 on the
teachers collection, for every password hasher. -/
theorem c2_seed_counts (hash_password : String → String) :
    Except.bind (init_mock_database hash_password)
      (fun p => count_documents p.1 []) = .ok 13 ∧
    Except.bind (init_mock_database hash_password)
      (fun p => count_documents p.2 []) = .ok 3 :=
  ⟨rfl, rfl⟩

/-- C3: on the seeded activities collection, the pipeline
`[{"$unwind": "$schedule_details.days"}, {"$group": ...}]` (any truthy
group stage value) returns exactly the seven canonical weekdays, once
each, in Monday→Sunday order, each shaped `{"_id": day}`. -/
theorem c3_day_aggregation (hash_password : String → String) (g : Value)
    (hg : pyTruthy g = true) :
    Except.bind (init_mock_database hash_password) (fun p =>
      aggregate p.1 [[("$unwind", .str "$schedule_details.days")], [("$group", g)]]) =
      .ok [[("_id", .str "Monday")], [("_id", .str "Tuesday")],
           [("_id", .str "Wednesday")], [("_id", .str "Thursday")],
           [("_id", .str "Friday")], [("_id", .str "Saturday")],
           [("_id", .str "Sunday")]] := by
  simp only [agg_group_truthy g hg]
  rfl

theorem c3_day_aggregation_witness :
    pyTruthy (Value.int 1) = true ∧
    Except.bind (init_mock_database (fun s => s)) (fun p =>
      aggregate p.1 [[("$unwind", .str "$schedule_details.days")], [("$group", .int 1)]]) =
      .ok [[("_id", .str "Monday")], [("_id", .str "Tuesday")],
           [("_id", .str "Wednesday")], [("_id", .str "Thursday")],
           [("_id", .str "Friday")], [("_id", .str "Saturday")],
           [("_id", .str "Sunday")]] :=
  ⟨rfl, c3_day_aggregation (fun s => s) (.int 1) rfl⟩

/-- C5 (counterexample): a query that matches no document (the matcher
rejects every stored body, hence `find` returns `[]`) can still cause
`update_one` to modify a document and report `modified_count = 1`,
because `update_one` locates documents through `find_one`'s `"_id"`
fast path, which ignores the other (non-matching) conditions. -/
theorem c5_update_modifies_unmatched :
    find ⟨[(.str "x", [("a", .int 1)])]⟩ [("_id", .str "x"), ("a", .int 2)] = .ok [] ∧
    update_one ⟨[(.str "x", [("a", .int 1)])]⟩ [("_id", .str "x"), ("a", .int 2)]
      [("$push", .obj [("b", .int 3)])] =
      .ok (⟨[(.str "x", [("a", .int 1), ("b", .arr [.int 3])])]⟩, 1) :=
  ⟨rfl, rfl⟩

/-- C5 (amended): for every query on which `find_one` reports not-found,
`update_one` returns a zero-modified-count result and leaves the
collection unchanged. -/
theorem c5_update_zero_when_find_one_none (c : MockCollection) (q u : Query)
    (h : find_one c q = .ok none) : update_one c q u = .ok (c, 0) := by
  unfold update_one
  rw [h]

theorem c5_update_zero_witness :
    find_one ⟨[]⟩ [("a", .int 1)] = .ok none ∧
    update_one ⟨[]⟩ [("a", .int 1)] [("$push", .obj [("b", .int 2)])] = .ok (⟨[]⟩, 0) :=
  ⟨rfl, c5_update_zero_when_find_one_none ⟨[]⟩ [("a", .int 1)]
    [("$push", .obj [("b", .int 2)])] rfl⟩

/-- C8 (counterexample): the claim says every unsupported pipeline
yields the empty list, but a pipeline passing the truthiness gate whose
`$unwind` value is a truthy non-string makes `aggregate` raise (Python
`AttributeError` on `.replace`) instead of returning `[]`. -/
theorem c8_nonstring_unwind_raises :
    aggregate ⟨[]⟩ [[("$unwind", .int 1)], [("$group", .int 1)]] = .error () ∧
    (Except.error () : Except Unit (List Doc)) ≠ .ok [] :=
  ⟨rfl, by simp⟩

/-- C8 (amended): `aggregate` returns the empty list for every pipeline
rejected by the recognition gate (fewer than two stages, or missing or
falsy `$unwind`/`$group`), and for every gate-passing pipeline whose
`$unwind` value is a string that does not strip (removing all dollar
signs) to `schedule_details.days`; a gate-passing pipeline whose
`$unwind` value is truthy but not a string instead raises. -/
theorem c8_unsupported_pipelines (c : MockCollection) (p : List Doc) :
    (shapeGate p = false → aggregate c p = .ok []) ∧
    (∀ s : String, shapeGate p = true → unwindVal? p = some (.str s) →
      stripDollars s ≠ "schedule_details.days" → aggregate c p = .ok []) ∧
    (∀ v : Value, shapeGate p = true → unwindVal? p = some v →
      (∀ s : String, v ≠ .str s) → aggregate c p = .error ()) := by
  rcases p with _ | ⟨p0, _ | ⟨p1, rest⟩⟩
  · exact ⟨fun _ => rfl,
      fun s hg => by simp [shapeGate] at hg,
      fun v hg => by simp [shapeGate] at hg⟩
  · exact ⟨fun _ => rfl,
      fun s hg => by simp [shapeGate] at hg,
      fun v hg => by simp [shapeGate] at hg⟩
  · refine ⟨?_, ?_, ?_⟩
    · intro hgate
      have hg2 : (truthyOpt (docLookup p0 "$unwind") &&
          truthyOpt (docLookup p1 "$group")) = false := hgate
      simp only [aggregate, hg2, Bool.false_eq_true, if_false]
    · intro s hgate hu hne
      have hg2 : (truthyOpt (docLookup p0 "$unwind") &&
          truthyOpt (docLookup p1 "$group")) = true := hgate
      have hu2 : docLookup p0 "$unwind" = some (.str s) := hu
      have hne2 : (stripDollars s == "schedule_details.days") = false := by
        rw [beq_eq_false_iff_ne]
        exact hne
      rw [hu2] at hg2
      simp only [aggregate, hu2, hg2, if_true, hne2, Bool.false_eq_true, if_false]
    · intro v hgate hu hns
      have hg2 : (truthyOpt (docLookup p0 "$unwind") &&
          truthyOpt (docLookup p1 "$group")) = true := hgate
      have hu2 : docLookup p0 "$unwind" = some v := hu
      rw [hu2] at hg2
      cases v with
      | str s => exact absurd rfl (hns s)
      | int n => simp only [aggregate, hu2, hg2, if_true]
      | arr es => simp only [aggregate, hu2, hg2, if_true]
      | obj fs => simp only [aggregate, hu2, hg2, if_true]

theorem c8_unsupported_pipelines_witness :
    aggregate ⟨[]⟩ [] = .ok [] ∧
    aggregate ⟨[]⟩ [[("$unwind", .str "$foo")], [("$group", .int 1)]] = .ok [] :=
  ⟨(c8_unsupported_pipelines ⟨[]⟩ []).1 rfl,
   (c8_unsupported_pipelines ⟨[]⟩
      [[("$unwind", .str "$foo")], [("$group", .int 1)]]).2.1 "$foo" rfl rfl
      (by decide)⟩

/-- C10 (counterexample): with an operator mapping as the `"_id"` value,
`find_one` does not return the not-found sentinel: it raises (Python
`TypeError`, the mapping is unhashable), even though a document whose
identifier satisfies the `$in` operator is stored (second conjunct). -/
theorem c10_operator_id_raises :
    find_one ⟨[(.str "x", [("a", .int 1)])]⟩
      [("_id", .obj [("$in", .arr [.str "x"])])] = .error () ∧
    find_one ⟨[(.str "x", [("a", .int 1)])]⟩ [("_id", .str "x")] =
      .ok (some [("_id", .str "x"), ("a", .int 1)]) :=
  ⟨rfl, rfl⟩

/-- C10 (amended): whenever `"_id"` occurs in the query, `find_one`
depends only on its value — every other condition is ignored — and when
that value is a mapping (or a list), `find_one` raises instead of
performing the lookup. -/
theorem c10_find_one_id_fast_path (c : MockCollection) (q : Query) (v : Value)
    (h : docLookup q "_id" = some v) :
    find_one c q = find_one c [("_id", v)] ∧
    (∀ fields : List (String × Value), v = .obj fields → find_one c q = .error ()) ∧
    (∀ elems : List Value, v = .arr elems → find_one c q = .error ()) := by
  have hq : docLookup [(("_id" : String), v)] "_id" = some v := by
    simp [docLookup]
  refine ⟨?_, ?_, ?_⟩
  · unfold find_one
    rw [h, hq]
  · intro fields hv
    subst hv
    unfold find_one
    rw [h]
    simp [hashableB]
  · intro elems hv
    subst hv
    unfold find_one
    rw [h]
    simp [hashableB]

theorem c10_find_one_id_fast_path_witness :
    docLookup [(("_id" : String), Value.str "x"), ("a", Value.int 1)] "_id" =
      some (.str "x") ∧
    find_one ⟨[]⟩ [("_id", .str "x"), ("a", .int 1)] = find_one ⟨[]⟩ [("_id", .str "x")] :=
  ⟨rfl, (c10_find_one_id_fast_path ⟨[]⟩ [("_id", .str "x"), ("a", .int 1)]
    (.str "x") rfl).1⟩

/-! Section: Computation lemmas for `find_one`/`update_one` on identifier queries -/

theorem dataSet_dataSet {d : List (Value × Doc)} {k : Value} (x y : Doc)
    (hpy : pyEq k k = true) : dataSet (dataSet d k x) k y = dataSet d k y := by
  induction d with
  | nil => simp [dataSet, hpy]
  | cons hd tl ih =>
    obtain ⟨k0, v0⟩ := hd
    by_cases h0 : pyEq k0 k = true
    · simp [dataSet, h0]
    · simp [dataSet, h0, ih]

theorem find_one_id_found (c : MockCollection) (docId : Value) (body : Doc)
    (hh : hashableB docId = true) (hfind : dataFind? c.data docId = some body) :
    find_one c [("_id", docId)] = .ok (some (withId docId body)) := by
  unfold find_one
  have hq : docLookup [(("_id" : String), docId)] "_id" = some docId := by
    simp [docLookup]
  rw [hq]
  simp only
  rw [if_pos hh, hfind]

theorem update_one_of_found (c : MockCollection) (q u : Query) (d : Doc)
    (docId : Value) {data1 data2 : List (Value × Doc)}
    (hfo : find_one c q = .ok (some d))
    (hdid : docLookup d "_id" = some docId)
    (hpb : pushBlock c.data docId u = .ok data1)
    (hplb : pullBlock data1 docId u = .ok data2) :
    update_one c q u = .ok (⟨data2⟩, 1) := by
  unfold update_one
  rw [hfo]
  simp only
  rw [isEmpty_eq_false_of_lookup hdid]
  simp only [Bool.false_eq_true, if_false]
  rw [hdid]
  simp only
  rw [hpb]
  simp only
  rw [hplb]

theorem pushFold_single_absent {data : List (Value × Doc)} {docId : Value}
    {body : Doc} {field : String} (v : Value)
    (hh : hashableB docId = true)
    (hfind : dataFind? data docId = some body)
    (habs : docLookup body field = none) :
    pushFold data docId [(field, v)] =
      .ok (dataSet data docId (body ++ [(field, .arr [v])])) := by
  have hget := dataGetE_of_find hh hfind
  have hpy := pyEq_refl_hashable hh
  unfold pushFold
  rw [hget]
  simp only
  have hm : docMem body field = false := by simp [docMem, habs]
  rw [hm]
  simp only [Bool.false_eq_true, if_false]
  rw [docSet_append _ habs]
  have hget1 : dataGetE (dataSet data docId (body ++ [(field, .arr [])])) docId =
      .ok (body ++ [(field, .arr [])]) :=
    dataGetE_of_find hh (dataFind?_dataSet _ hpy)
  rw [hget1]
  simp only
  rw [docLookup_append_self _ habs]
  simp only
  rw [docSet_append_self _ _ habs]
  unfold pushFold
  rw [dataSet_dataSet _ _ hpy]
  simp only [List.nil_append]

theorem pushFold_single_present {data : List (Value × Doc)} {docId : Value}
    {body : Doc} {field : String} {elems : List Value} (v : Value)
    (hh : hashableB docId = true)
    (hfind : dataFind? data docId = some body)
    (hl : docLookup body field = some (.arr elems)) :
    pushFold data docId [(field, v)] =
      .ok (dataSet data docId (docSet body field (.arr (elems ++ [v])))) := by
  have hget := dataGetE_of_find hh hfind
  unfold pushFold
  rw [hget]
  simp only
  have hm : docMem body field = true := by simp [docMem, hl]
  rw [hm]
  simp only [if_true]
  rw [hget]
  simp only
  rw [hl]
  simp only
  unfold pushFold
  rfl

theorem pullFold_single_noop {data : List (Value × Doc)} {docId : Value}
    {body : Doc} {field : String} {elems : List Value} (v : Value)
    (hh : hashableB docId = true)
    (hfind : dataFind? data docId = some body)
    (hl : docLookup body field = some (.arr elems))
    (hno : elems.any (fun e => pyEq e v) = false) :
    pullFold data docId [(field, v)] = .ok data := by
  have hget := dataGetE_of_find hh hfind
  unfold pullFold
  rw [hget]
  simp only
  rw [hl]
  simp only
  rw [hno]
  simp only [Bool.false_eq_true, if_false]
  unfold pullFold
  rfl

theorem pullFold_single_remove {data : List (Value × Doc)} {docId : Value}
    {body : Doc} {field : String} {elems : List Value} (v : Value)
    (hh : hashableB docId = true)
    (hfind : dataFind? data docId = some body)
    (hl : docLookup body field = some (.arr elems))
    (hyes : elems.any (fun e => pyEq e v) = true) :
    pullFold data docId [(field, v)] =
      .ok (dataSet data docId (docSet body field (.arr (removeFirst elems v)))) := by
  have hget := dataGetE_of_find hh hfind
  unfold pullFold
  rw [hget]
  simp only
  rw [hl]
  simp only
  rw [hyes]
  simp only [if_true]
  unfold pullFold
  rfl

/-- C4: inserting any document carrying a (hashable) identifier and
immediately looking it up by that identifier succeeds and returns the
same document field-for-field, with the identifier attached. -/
theorem c4_insert_then_find_one (c : MockCollection) (document : Doc) (docId : Value)
    (hnd : (document.map Prod.fst).Nodup)
    (hid : docLookup document "_id" = some docId)
    (hh : hashableB docId = true) :
    ∃ c2 res,
      insert_one c document = .ok (c2, docId) ∧
      find_one c2 [("_id", docId)] = .ok (some res) ∧
      docLookup res "_id" = some docId ∧
      ∀ k : String, docLookup res k = docLookup document k := by
  have hpy := pyEq_refl_hashable hh
  have hbodyid : docLookup (docDel document "_id") "_id" = none :=
    docLookup_docDel_self hnd
  have hbnd : ((docDel document "_id").map Prod.fst).Nodup :=
    (docDel_keys_sublist document "_id").nodup hnd
  have hbfresh : ∀ kv ∈ docDel document "_id", kv.1 ≠ "_id" := by
    intro kv hm hkk
    rw [docLookup_eq_none_iff] at hbodyid
    have hmm : kv.1 ∈ (docDel document "_id").map Prod.fst :=
      List.mem_map_of_mem Prod.fst hm
    rw [hkk] at hmm
    exact hbodyid hmm
  have hins : insert_one c document =
      .ok (⟨dataSet c.data docId (docDel document "_id")⟩, docId) := by
    unfold insert_one
    rw [hid]
    simp only
    rw [if_pos hh]
  have hwid : withId docId (docDel document "_id") =
      ("_id", docId) :: docDel document "_id" :=
    withId_fresh docId hbfresh hbnd
  refine ⟨_, _, hins,
    find_one_id_found _ docId _ hh (dataFind?_dataSet _ hpy), ?_, ?_⟩
  · rw [hwid]
    simp [docLookup]
  · intro k
    rw [hwid]
    by_cases hk : k = "_id"
    · subst hk
      simp [docLookup, hid]
    · have hne : ("_id" == k) = false := by
        rw [beq_eq_false_iff_ne]
        exact fun hh2 => hk hh2.symm
      simp only [docLookup, hne, Bool.false_eq_true, if_false]
      exact docLookup_docDel_ne hk

theorem c4_insert_then_find_one_witness :
    ∃ c2 res,
      insert_one ⟨[]⟩ [("_id", .str "x"), ("a", .int 1)] = .ok (c2, .str "x") ∧
      find_one c2 [("_id", .str "x")] = .ok (some res) ∧
      docLookup res "_id" = some (.str "x") ∧
      ∀ k : String, docLookup res k =
        docLookup [(("_id" : String), Value.str "x"), ("a", Value.int 1)] k :=
  c4_insert_then_find_one ⟨[]⟩ [("_id", .str "x"), ("a", .int 1)] (.str "x")
    (by simp) rfl rfl

/-- C6: for a stored document (its body's `"_id"` entry, if any, agrees
with the key, as in every reachable state) and a body field name that is
absent (and distinct from the reserved identifier field), `update_one`
with `$push` creates the field as a one-element array; a second `$push`
of a different value yields the two-element array in push order. -/
theorem c6_push_creates_then_appends (c : MockCollection) (docId : Value)
    (body : Doc) (field : String) (v1 v2 : Value)
    (hh : hashableB docId = true)
    (hfind : dataFind? c.data docId = some body)
    (hwf : ∀ kv ∈ body, kv.1 = "_id" → kv.2 = docId)
    (habs : docLookup body field = none)
    (hfid : field ≠ "_id")
    (hne : v1 ≠ v2) :
    ∃ c1 c2,
      update_one c [("_id", docId)] [("$push", .obj [(field, v1)])] = .ok (c1, 1) ∧
      dataFind? c1.data docId = some (body ++ [(field, .arr [v1])]) ∧
      update_one c1 [("_id", docId)] [("$push", .obj [(field, v2)])] = .ok (c2, 1) ∧
      dataFind? c2.data docId = some (body ++ [(field, .arr [v1, v2])]) := by
  have hpy := pyEq_refl_hashable hh
  -- first update
  have hu1 : update_one c [("_id", docId)] [("$push", .obj [(field, v1)])] =
      .ok (⟨dataSet c.data docId (body ++ [(field, .arr [v1])])⟩, 1) := by
    refine update_one_of_found c _ _ _ docId
      (find_one_id_found c docId body hh hfind) (withId_lookup_id docId hwf) ?_ rfl
    show pushFold c.data docId [(field, v1)] = _
    exact pushFold_single_absent v1 hh hfind habs
  have hfind1 : dataFind? (dataSet c.data docId (body ++ [(field, .arr [v1])])) docId =
      some (body ++ [(field, .arr [v1])]) := dataFind?_dataSet _ hpy
  have hwf1 : ∀ kv ∈ body ++ [(field, .arr [v1])], kv.1 = "_id" → kv.2 = docId := by
    intro kv hm hk
    rcases List.mem_append.mp hm with hm1 | hm2
    · exact hwf kv hm1 hk
    · rw [List.mem_singleton] at hm2
      subst hm2
      exact absurd hk hfid
  have hl1 : docLookup (body ++ [(field, .arr [v1])]) field = some (.arr [v1]) :=
    docLookup_append_self _ habs
  -- second update
  have hu2 : update_one ⟨dataSet c.data docId (body ++ [(field, .arr [v1])])⟩
      [("_id", docId)] [("$push", .obj [(field, v2)])] =
      .ok (⟨dataSet (dataSet c.data docId (body ++ [(field, .arr [v1])])) docId
        (docSet (body ++ [(field, .arr [v1])]) field (.arr ([v1] ++ [v2])))⟩, 1) := by
    refine update_one_of_found _ _ _ _ docId
      (find_one_id_found _ docId _ hh hfind1) (withId_lookup_id docId hwf1) ?_ rfl
    show pushFold (dataSet c.data docId (body ++ [(field, .arr [v1])])) docId
      [(field, v2)] = _
    exact pushFold_single_present v2 hh hfind1 hl1
  refine ⟨_, _, hu1, hfind1, hu2, ?_⟩
  rw [docSet_append_self _ _ habs]
  exact dataFind?_dataSet _ hpy

theorem c6_push_creates_then_appends_witness :
    ∃ c1 c2,
      update_one ⟨[(.str "x", [("a", .int 0)])]⟩ [("_id", .str "x")]
        [("$push", .obj [("b", .int 1)])] = .ok (c1, 1) ∧
      dataFind? c1.data (.str "x") =
        some ([("a", .int 0)] ++ [("b", .arr [.int 1])]) ∧
      update_one c1 [("_id", .str "x")] [("$push", .obj [("b", .int 2)])] = .ok (c2, 1) ∧
      dataFind? c2.data (.str "x") =
        some ([("a", .int 0)] ++ [("b", .arr [.int 1, .int 2])]) :=
  c6_push_creates_then_appends ⟨[(.str "x", [("a", .int 0)])]⟩ (.str "x")
    [("a", .int 0)] "b" (.int 1) (.int 2) rfl rfl
    (by intro kv hm hk; rw [List.mem_singleton] at hm; subst hm; exact absurd hk (by decide))
    rfl (by decide) (by simp)

/-- C7: for a stored document whose named (non-identifier) field is an
array, `update_one` with `$pull` of an absent value leaves the
collection unchanged (while still reporting one modification), and
`$pull` of a present value removes exactly the first equal occurrence,
leaving the rest of the array unchanged. -/
theorem c7_pull_removes_one_occurrence (c : MockCollection) (docId : Value)
    (body : Doc) (field : String) (elems : List Value) (v : Value)
    (hh : hashableB docId = true)
    (hfind : dataFind? c.data docId = some body)
    (hwf : ∀ kv ∈ body, kv.1 = "_id" → kv.2 = docId)
    (hlook : docLookup body field = some (.arr elems)) :
    ((∀ e ∈ elems, pyEq e v = false) →
      update_one c [("_id", docId)] [("$pull", .obj [(field, v)])] = .ok (c, 1)) ∧
    (∀ l1 e l2, elems = l1 ++ e :: l2 → pyEq e v = true →
      (∀ a ∈ l1, pyEq a v = false) →
      update_one c [("_id", docId)] [("$pull", .obj [(field, v)])] =
        .ok (⟨dataSet c.data docId (docSet body field (.arr (l1 ++ l2)))⟩, 1)) := by
  have hfo := find_one_id_found c docId body hh hfind
  have hdid := withId_lookup_id docId hwf
  constructor
  · intro hno
    have hno2 : elems.any (fun e => pyEq e v) = false := by
      rw [List.any_eq_false]
      intro e he
      simp [hno e he]
    exact update_one_of_found c _ _ _ docId hfo hdid rfl
      (show pullFold c.data docId [(field, v)] = _ from
        pullFold_single_noop v hh hfind hlook hno2)
  · intro l1 e l2 hdecomp he hfirst
    subst hdecomp
    have hyes : (l1 ++ e :: l2).any (fun x => pyEq x v) = true := by
      rw [List.any_eq_true]
      exact ⟨e, by simp, he⟩
    have hrm := @removeFirst_append l1 l2 e v hfirst he
    refine update_one_of_found c _ _ _ docId hfo hdid rfl ?_
    show pullFold c.data docId [(field, v)] = _
    rw [pullFold_single_remove v hh hfind hlook hyes, hrm]

theorem c7_pull_removes_one_occurrence_witness :
    update_one ⟨[(.str "x", [("tags", .arr [.int 1, .int 2])])]⟩ [("_id", .str "x")]
      [("$pull", .obj [("tags", .int 5)])] =
      .ok (⟨[(.str "x", [("tags", .arr [.int 1, .int 2])])]⟩, 1) ∧
    update_one ⟨[(.str "x", [("tags", .arr [.int 1, .int 2])])]⟩ [("_id", .str "x")]
      [("$pull", .obj [("tags", .int 2)])] =
      .ok (⟨[(.str "x", [("tags", .arr [.int 1])])]⟩, 1) := by
  have hwf : ∀ kv ∈ [(("tags" : String), Value.arr [.int 1, .int 2])],
      kv.1 = "_id" → kv.2 = Value.str "x" := by
    intro kv hm hk
    rw [List.mem_singleton] at hm
    subst hm
    exact absurd hk (by decide)
  constructor
  · exact (c7_pull_removes_one_occurrence ⟨[(.str "x", [("tags", .arr [.int 1, .int 2])])]⟩
      (.str "x") [("tags", .arr [.int 1, .int 2])] "tags" [.int 1, .int 2] (.int 5)
      rfl rfl hwf rfl).1 (by decide)
  · exact (c7_pull_removes_one_occurrence ⟨[(.str "x", [("tags", .arr [.int 1, .int 2])])]⟩
      (.str "x") [("tags", .arr [.int 1, .int 2])] "tags" [.int 1, .int 2] (.int 2)
      rfl rfl hwf rfl).2 [.int 1] (.int 2) [] rfl (by decide) (by decide)

/-- C9: identifiers are immutable under updates: any sequence of
`update_one` calls preserves the exact list of identifier keys of the
collection, and any identifier present before is still present after,
with `find_one` returning its (possibly updated) document under the same
identifier. -/
theorem c9_identifier_immutable (c : MockCollection) (ops : List (Query × Query))
    (c2 : MockCollection) (h : applyUpdates c ops = .ok c2) :
    c2.data.map Prod.fst = c.data.map Prod.fst ∧
    ∀ docId : Value, hashableB docId = true →
      (dataFind? c.data docId).isSome = true →
      ∃ body2, dataFind? c2.data docId = some body2 ∧
        find_one c2 [("_id", docId)] = .ok (some (withId docId body2)) := by
  have hkeys := applyUpdates_keys ops c c2 h
  refine ⟨hkeys, ?_⟩
  intro docId hh hsome
  have hsome2 : (dataFind? c2.data docId).isSome = true := by
    rw [dataFind?_isSome_of_keys hkeys]
    exact hsome
  cases hf2 : dataFind? c2.data docId with
  | none => rw [hf2] at hsome2; simp at hsome2
  | some body2 =>
      exact ⟨body2, rfl, find_one_id_found c2 docId body2 hh hf2⟩

theorem c9_identifier_immutable_witness :
    (MockCollection.mk [(.str "x", [("a", .arr [.int 1])])]).data.map Prod.fst =
      (MockCollection.mk [(.str "x", [("a", .arr [])])]).data.map Prod.fst ∧
    ∃ body2, dataFind? [((Value.str "x"), [(("a" : String), Value.arr [.int 1])])]
        (.str "x") = some body2 ∧
      find_one ⟨[(.str "x", [("a", .arr [.int 1])])]⟩ [("_id", .str "x")] =
        .ok (some (withId (.str "x") body2)) :=
  have H := c9_identifier_immutable ⟨[(.str "x", [("a", .arr [])])]⟩
    [([("_id", .str "x")], [("$push", .obj [("a", .int 1)])])]
    ⟨[(.str "x", [("a", .arr [.int 1])])]⟩ rfl
  ⟨H.1, H.2 (.str "x") rfl rfl⟩

end MockDB
